import Mathlib

/-!
Verification of the email-to-handover pipeline and the draft sign-off state
machine of the handover_export repository, as a shallow embedding in Lean.

Conventions of the embedding:
* Python strings are Lean `String`s; character-level regex substitutions are
  modelled as recursive functions on `List Char`.  The model is exact for
  ASCII inputs; Python's Unicode case folding and Unicode whitespace classes
  are modelled by ASCII `Char.toLower` and an explicit whitespace list.
* Timestamps (ISO strings ordered lexicographically in the source) are
  modelled as `Int`; `datetime.now()` becomes an explicit `now` parameter.
* Randomly generated UUIDs become explicit fresh-id parameters.
* The persistent store (supabase tables) is a record of lists; each service
  call is a function `Store → ... → Store × Except String α` where the
  `Except` models raised `ValueError`/`HTTPException` messages.
* Recursions that consume a variable number of characters per step are fed
  a fuel argument equal to the input length; the fuel-exhausted branch is
  unreachable because every step consumes at least one character.
-/

namespace HandoverExport

/-! ## Character-level text utilities (regex model for the Group stage) -/

/-- Python `\s` (ASCII range). -/
def isPySpace (c : Char) : Bool :=
  c = ' ' || c = '\t' || c = '\n' || c = '\x0d' || c = '\x0b' || c = '\x0c'

/-- Character class `[a-z0-9]` used by the normalizer after lower-casing. -/
def isLowerAlnum (c : Char) : Bool :=
  ('a' ≤ c && c ≤ 'z') || ('0' ≤ c && c ≤ '9')

/-- `\s*` at the head of the list. -/
def dropWs (l : List Char) : List Char := l.dropWhile isPySpace

/-- Optional `[:\-]?` at the head of the list. -/
def dropPunct : List Char → List Char
  | [] => []
  | c :: cs => if c = ':' || c = '-' then cs else c :: cs

/-- `re.sub(r'^(re:|fw:|fwd:)\s*', '', s)`: one anchored leftmost-alternation
match; the pattern is applied to an already lower-cased string. -/
def dropMarker (l : List Char) : List Char :=
  if l.take 3 = ['r', 'e', ':'] then dropWs (l.drop 3)
  else if l.take 3 = ['f', 'w', ':'] then dropWs (l.drop 3)
  else if l.take 4 = ['f', 'w', 'd', ':'] then dropWs (l.drop 4)
  else l

/-- `re.sub(r'urgent[:\-]?\s*', '', s)`: global, non-overlapping, scanning
left to right.  Fuel = input length suffices: a match consumes at least the
six characters of `urgent`, a non-match consumes one. -/
def dropUrgentAux : Nat → List Char → List Char
  | 0, l => l
  | _ + 1, [] => []
  | fuel + 1, c :: cs =>
    if (c :: cs).take 6 = ['u', 'r', 'g', 'e', 'n', 't'] then
      dropUrgentAux fuel (dropWs (dropPunct ((c :: cs).drop 6)))
    else
      c :: dropUrgentAux fuel cs

def dropUrgent (l : List Char) : List Char := dropUrgentAux l.length l

/-- `re.sub(r'[^a-z0-9]+', ' ', s)`: each maximal run of non-`[a-z0-9]`
characters becomes a single space.  The space is emitted at the last
character of the run. -/
def collapseRuns : List Char → List Char
  | [] => []
  | c :: cs =>
    if isLowerAlnum c then c :: collapseRuns cs
    else
      match cs with
      | [] => [' ']
      | d :: _ => if isLowerAlnum d then ' ' :: collapseRuns cs else collapseRuns cs

/-- Python `str.strip()` (whitespace from both ends). -/
def pyStrip (l : List Char) : List Char :=
  ((dropWs l).reverse.dropWhile isPySpace).reverse

/-! ## Pipeline data model (src/pipeline/types.py) -/

inductive HandoverCategory where
  | ELECTRICAL | PROJECTS | FINANCIAL | GALLEY_LAUNDRY | RISK | ADMIN
  | FIRE_SAFETY | TENDERS | LOGISTICS | DECK | GENERAL
deriving DecidableEq, Repr

/-- The `str` value of each enum member. -/
def HandoverCategory.value : HandoverCategory → String
  | .ELECTRICAL => "Electrical"
  | .PROJECTS => "Projects"
  | .FINANCIAL => "Financial"
  | .GALLEY_LAUNDRY => "Galley Laundry"
  | .RISK => "Risk"
  | .ADMIN => "Admin"
  | .FIRE_SAFETY => "Fire Safety"
  | .TENDERS => "Tenders"
  | .LOGISTICS => "Logistics"
  | .DECK => "Deck"
  | .GENERAL => "General Outstanding"

/-- `HandoverCategory(category_str)`: enum lookup by value, `none` models the
`ValueError` branch. -/
def categoryOfValue (s : String) : Option HandoverCategory :=
  [HandoverCategory.ELECTRICAL, .PROJECTS, .FINANCIAL, .GALLEY_LAUNDRY, .RISK,
   .ADMIN, .FIRE_SAFETY, .TENDERS, .LOGISTICS, .DECK, .GENERAL].find?
    (fun c => c.value == s)

structure ExtractedEmail where
  short_id : String
  email_id : String
  conversation_id : String
  subject : String
  body_text : String
  body_preview : String
  sender_name : String
  sender_email : String
  received_at : Int
  has_attachments : Bool
  outlook_link : String
deriving DecidableEq, Repr

structure ClassificationResult where
  short_id : String
  category : HandoverCategory
  summary : String
  confidence : ℚ
deriving DecidableEq, Repr

/-- `notes` entries are the `{'subject': ..., 'summary': ...}` dicts;
`source_ids` entries are the `{'shortId', 'summaryId', 'link'}` dicts. -/
structure TopicGroup where
  merge_key : String
  category : HandoverCategory
  subject_group : String
  notes : List (String × String)
  source_ids : List (String × String × String)
deriving DecidableEq, Repr

/-! ## GroupTopicsStage (src/pipeline/stages/group_topics.py) -/

namespace GroupTopicsStage

/-- `GroupTopicsStage._normalize_subject`. -/
def normalize_subject (subject : String) : String :=
  String.mk (pyStrip (collapseRuns (dropUrgent (dropMarker
    (subject.toList.map Char.toLower)))))

/-- `GroupTopicsStage._build_merge_key`:
`re.sub(r'[^a-z0-9]', '', (category + "_" + subject_group).lower())`. -/
def build_merge_key (category subject_group : String) : String :=
  String.mk (((category ++ "_" ++ subject_group).toList.map Char.toLower).filter
    isLowerAlnum)

/-- `{e.short_id: e for e in emails}.get(sid)`: a Python dict comprehension
keeps the last binding of a duplicated key. -/
def lookupEmail (emails : List ExtractedEmail) (sid : String) : Option ExtractedEmail :=
  emails.reverse.find? (fun e => e.short_id == sid)

/-- Appending one note and one source reference to an existing group. -/
def addNote (g : TopicGroup) (subject summary short_id link : String) : TopicGroup :=
  { g with
    notes := g.notes ++ [(subject, summary)],
    source_ids := g.source_ids ++
      [(short_id, "S" ++ toString (g.source_ids.length + 1), link)] }

/-- The body of the `for cls in classifications` loop.  The groups dict is an
insertion-ordered association list keyed by `f"{category}::{subject_group}"`. -/
def groupStep (emails : List ExtractedEmail) (groups : List (String × TopicGroup))
    (cls : ClassificationResult) : List (String × TopicGroup) :=
  match lookupEmail emails cls.short_id with
  | none => groups
  | some email =>
    let sg := normalize_subject email.subject
    let key := cls.category.value ++ "::" ++ sg
    let mk := build_merge_key cls.category.value sg
    let groups1 :=
      if (groups.lookup key).isSome then groups
      else groups ++ [(key, ⟨mk, cls.category, sg, [], []⟩)]
    groups1.map (fun p =>
      if p.1 == key then
        (p.1, addNote p.2 email.subject cls.summary email.short_id email.outlook_link)
      else p)

/-- `GroupTopicsStage.execute`. -/
def execute (classifications : List ClassificationResult)
    (emails : List ExtractedEmail) : List (String × TopicGroup) :=
  classifications.foldl (groupStep emails) []

end GroupTopicsStage

/-! ## Raw messages and ExtractContentStage (src/pipeline/stages/extract_content.py) -/

/-- The `body` dict `{content, contentType}`; an absent key is `none`. -/
structure EmailBody where
  content : Option String
  contentType : Option String
deriving DecidableEq, Repr

structure EmailAddressRec where
  name : Option String
  address : Option String
deriving DecidableEq, Repr

/-- The `from` dict `{emailAddress: {name, address}}`. -/
structure FromAddress where
  emailAddress : Option EmailAddressRec
deriving DecidableEq, Repr

structure RawEmail where
  id : String
  subject : String
  body : EmailBody
  body_preview : String
  from_address : FromAddress
  received_datetime : String
  conversation_id : String
  has_attachments : Bool
  importance : String
deriving DecidableEq, Repr

/-- UTF-8 encoding of one character, as byte values. -/
def utf8Bytes (c : Char) : List Nat :=
  let n := c.toNat
  if n < 128 then [n]
  else if n < 2048 then [192 + n / 64, 128 + n % 64]
  else if n < 65536 then [224 + n / 4096, 128 + (n / 64) % 64, 128 + n % 64]
  else [240 + n / 262144, 128 + (n / 4096) % 64, 128 + (n / 64) % 64, 128 + n % 64]

def hexDigit (n : Nat) : Char :=
  if n < 10 then Char.ofNat (48 + n) else Char.ofNat (55 + n)

/-- `urllib.parse.quote` keeps exactly `[A-Za-z0-9_.~-]` when `safe=''`. -/
def isUnreservedByte (n : Nat) : Bool :=
  (65 ≤ n && n ≤ 90) || (97 ≤ n && n ≤ 122) || (48 ≤ n && n ≤ 57) ||
  n = 45 || n = 46 || n = 95 || n = 126

def encodeByte (n : Nat) : List Char :=
  if isUnreservedByte n then [Char.ofNat n]
  else ['%', hexDigit (n / 16), hexDigit (n % 16)]

/-- `urllib.parse.quote(s, safe='')`. -/
def pyQuote (s : String) : String :=
  String.mk (((s.toList.map utf8Bytes).flatten.map encodeByte).flatten)

/-- After a `<`, the regex `<[^>]+>` needs at least one non-`>` character and
then a `>`; the match extends to the first `>`.  Returns the suffix after
that `>`, or `none` when the pattern does not match at this `<`. -/
def findTagEnd : List Char → Option (List Char)
  | [] => none
  | c :: cs => if c = '>' then none else goGt cs
where
  goGt : List Char → Option (List Char)
    | [] => none
    | c :: cs => if c = '>' then some cs else goGt cs

/-- `re.sub(r'<[^>]+>', '', s)`: global left-to-right scan.  Fuel = input
length suffices (a match consumes at least three characters). -/
def stripTagsAux : Nat → List Char → List Char
  | 0, l => l
  | _ + 1, [] => []
  | fuel + 1, c :: cs =>
    if c = '<' then
      match findTagEnd cs with
      | some rest => stripTagsAux fuel rest
      | none => '<' :: stripTagsAux fuel cs
    else
      c :: stripTagsAux fuel cs

def stripTags (l : List Char) : List Char := stripTagsAux l.length l

/-- `re.sub(r'\s+', ' ', s)`: each maximal whitespace run becomes one space. -/
def collapseWsRuns : List Char → List Char
  | [] => []
  | c :: cs =>
    if isPySpace c then
      match cs with
      | [] => [' ']
      | d :: _ => if isPySpace d then collapseWsRuns cs else ' ' :: collapseWsRuns cs
    else
      c :: collapseWsRuns cs

namespace ExtractContentStage

/-- `ExtractContentStage._strip_html`. -/
def strip_html (s : String) : String :=
  String.mk (pyStrip (collapseWsRuns (stripTags s.toList)))

/-- `or`-style fallback for `body.get('content', preview)` is modelled by
`Option.getD`; see `execute`. -/
def extractOne (parseDate : String → Option Int) (now : Int) (idx : Nat)
    (email : RawEmail) : ExtractedEmail :=
  let encoded_id := pyQuote email.id
  let outlook_link :=
    "https://outlook.office365.com/mail/deeplink/read/" ++ encoded_id ++
    "?ItemID=" ++ encoded_id ++ "&exvsurl=1"
  let body_content := email.body.content.getD email.body_preview
  let body_content :=
    if email.body.contentType = some "html" then strip_html body_content
    else body_content
  let from_addr := email.from_address.emailAddress
  { short_id := "E" ++ toString idx
    email_id := email.id
    conversation_id := email.conversation_id
    subject := email.subject
    body_text := body_content
    body_preview := email.body_preview
    sender_name := (from_addr.map (fun a => a.name.getD "")).getD ""
    sender_email := (from_addr.map (fun a => a.address.getD "")).getD ""
    received_at := (parseDate email.received_datetime).getD now
    has_attachments := email.has_attachments
    outlook_link := outlook_link }

/-- `ExtractContentStage.execute`: `enumerate(emails, start=start_index)`.
`parseDate`/`now` model `dateutil.parser.parse` and `datetime.now()`. -/
def execute (parseDate : String → Option Int) (now : Int)
    (emails : List RawEmail) (start_index : Nat := 1) : List ExtractedEmail :=
  ((List.range emails.length).zip emails).map
    (fun p => extractOne parseDate now (start_index + p.1) p.2)

end ExtractContentStage

/-! ## ClassifyStage (src/pipeline/stages/classify.py) -/

/-- The JSON-shaped classifier response; an absent field is `none`. -/
structure ClassifierResponse where
  category : Option String
  summary : Option String
  shortId : Option String
deriving DecidableEq, Repr

namespace ClassifyStage

/-- `ClassifyStage._classify_single`; the classifier call's outcome (success
or raised exception text) is the `Except` argument. -/
def classify_single (email : ExtractedEmail)
    (response : Except String ClassifierResponse) : ClassificationResult :=
  match response with
  | .error e =>
    { short_id := email.short_id
      category := .GENERAL
      summary := "Classification error: " ++ e
      confidence := 0 }
  | .ok r =>
    let category_str := r.category.getD "General Outstanding"
    let category := (categoryOfValue category_str).getD .GENERAL
    { short_id := r.shortId.getD email.short_id
      category := category
      summary := r.summary.getD "No summary generated."
      confidence := 9 / 10 }

/-- `ClassifyStage.execute`: `asyncio.gather` writes each task's result back
to its input slot, so the stage is the slot-wise map of `classify_single`
over the input list paired with the per-message classifier outcomes. -/
def execute (emails : List ExtractedEmail)
    (responses : List (Except String ClassifierResponse)) : List ClassificationResult :=
  List.zipWith classify_single emails responses

end ClassifyStage

/-! ## Reference definitions written from the spec's words (for claim C5)

The spec describes `normalize_subject` as: lower-case; strip a leading
reply/forward marker (`re:`, `fw:`, `fwd:`, optional following whitespace);
strip a leading "urgent" marker; collapse every run of non-alphanumeric
characters to a single space; trim.  The reference implementations below are
written from those words (prefix tests instead of anchored regex scanning,
map-then-squeeze instead of run scanning). -/

/-- Spec words: "strips leading reply/forward markers (`re:`, `fw:`, `fwd:`,
optional following whitespace)". -/
def refDropMarker (l : List Char) : List Char :=
  if ['r', 'e', ':'].isPrefixOf l then dropWs (l.drop 3)
  else if ['f', 'w', ':'].isPrefixOf l then dropWs (l.drop 3)
  else if ['f', 'w', 'd', ':'].isPrefixOf l then dropWs (l.drop 4)
  else l

/-- Spec words (claim C5 reading): strip a LEADING "urgent" marker only. -/
def refDropLeadingUrgent (l : List Char) : List Char :=
  if ['u', 'r', 'g', 'e', 'n', 't'].isPrefixOf l then dropWs (dropPunct (l.drop 6))
  else l

/-- Collapse each maximal space run to one space (the input has every
non-alphanumeric character already mapped to a space). -/
def squeezeSpaces : List Char → List Char
  | [] => []
  | [c] => [c]
  | a :: b :: rest =>
    if a = ' ' && b = ' ' then squeezeSpaces (b :: rest)
    else a :: squeezeSpaces (b :: rest)

/-- Spec words: "collapses every run of non-alphanumeric characters to a
single space", phrased as map-to-space then squeeze. -/
def refCollapse (l : List Char) : List Char :=
  squeezeSpaces (l.map (fun c => if isLowerAlnum c then c else ' '))

/-- `normalize_subject` exactly as claim C5 states it (leading "urgent"
marker only). -/
def normalizeSubjectClaimRef (subject : String) : String :=
  String.mk (pyStrip (refCollapse (refDropLeadingUrgent (refDropMarker
    (subject.toList.map Char.toLower)))))

/-- The amended reference: identical to `normalizeSubjectClaimRef` except
that the "urgent" marker is stripped at every occurrence (globally), which
is what the source's unanchored regex does. -/
def normalizeSubjectAmendedRef (subject : String) : String :=
  String.mk (pyStrip (refCollapse (dropUrgent (refDropMarker
    (subject.toList.map Char.toLower)))))

/-! ## Persistent store model (supabase tables used by the draft services)

Rows of `handover_drafts`, `handover_signoffs`, `handover_exports`,
`handover_draft_items`, `handover_draft_sections`, `handover_entries` and
`handover_draft_edits`.  ISO timestamps are `Int`, generated UUIDs are
explicit parameters. -/

structure Draft where
  id : String
  yacht_id : String
  outgoing_user_id : String
  incoming_user_id : Option String
  period_start : Int
  period_end : Int
  shift_type : String
  state : String
  created_at : Int
  updated_at : Int
deriving DecidableEq, Repr

structure Signoff where
  id : String
  draft_id : String
  user_id : String
  signoff_type : String
  signed_at : Int
  comments : Option String
deriving DecidableEq, Repr

structure ExportRec where
  id : String
  draft_id : Option String
deriving DecidableEq, Repr

structure DraftItem where
  id : String
  draft_id : Option String
  section_id : String
  summary_text : Option String
  item_order : Int
  domain_code : Option String
  is_critical : Bool
  source_entry_ids : List String
  edit_count : Int
  is_suppressed : Bool
  created_at : Int
deriving DecidableEq, Repr

structure DraftSection where
  id : String
  draft_id : String
  section_bucket : String
  section_order : Int
  created_at : Int
deriving DecidableEq, Repr

structure Entry where
  id : String
  yacht_id : String
  status : String
  created_at : Int
  presentation_bucket : Option String
  summary_text : Option String
  narrative_text : Option String
  primary_domain : Option String
  risk_tags : List String
deriving DecidableEq, Repr

structure EditRec where
  id : String
  item_id : String
  editor_user_id : String
  original_text : Option String
  edited_text : String
  edit_reason : Option String
  created_at : Int
deriving DecidableEq, Repr

structure Store where
  drafts : List Draft
  signoffs : List Signoff
  exports : List ExportRec
  items : List DraftItem
  sections : List DraftSection
  entries : List Entry
  edits : List EditRec
deriving DecidableEq, Repr

/-! ## SignoffManager (src/services/signoff_manager.py) -/

namespace SignoffManager

/-- `SignoffManager.STATE_TRANSITIONS`. -/
def STATE_TRANSITIONS : List (String × List String) :=
  [("DRAFT", ["IN_REVIEW"]),
   ("IN_REVIEW", ["ACCEPTED"]),
   ("ACCEPTED", ["SIGNED"]),
   ("SIGNED", ["EXPORTED"]),
   ("EXPORTED", [])]

/-- `SignoffManager._get_draft`: `.eq("id", draft_id).single()`, raising when
no row is found (the first matching row models `.single()`). -/
def get_draft (st : Store) (draft_id : String) : Except String Draft :=
  match st.drafts.find? (fun d => d.id == draft_id) with
  | some d => .ok d
  | none => .error ("Draft " ++ draft_id ++ " not found")

/-- `SignoffManager._update_draft_state`. -/
def update_draft_state (st : Store) (draft_id new_state : String) (now : Int) : Store :=
  { st with
    drafts := st.drafts.map (fun d =>
      if d.id == draft_id then { d with state := new_state, updated_at := now } else d) }

/-- `SignoffManager._create_signoff`. -/
def create_signoff (st : Store) (draft_id user_id signoff_type : String)
    (comments : Option String) (signoff_id : String) (now : Int) : Store :=
  { st with
    signoffs := st.signoffs ++
      [{ id := signoff_id, draft_id := draft_id, user_id := user_id,
         signoff_type := signoff_type, signed_at := now, comments := comments }] }

/-- `SignoffManager.enter_review`: DRAFT → IN_REVIEW, outgoing user only. -/
def enter_review (st : Store) (draft_id user_id : String) (now : Int) :
    Store × Except String Bool :=
  match get_draft st draft_id with
  | .error e => (st, .error e)
  | .ok draft =>
    if draft.state ≠ "DRAFT" then
      (st, .error ("Cannot enter review from state " ++ draft.state ++
        ". Draft must be in DRAFT state."))
    else if draft.outgoing_user_id ≠ user_id then
      (st, .error "Only outgoing user can enter review")
    else
      (update_draft_state st draft_id "IN_REVIEW" now, .ok true)

/-- `SignoffManager.accept_draft`: IN_REVIEW → ACCEPTED, outgoing user only;
creates the `outgoing` signoff record before updating the state.  (The
ledger insert swallows every exception and is omitted.) -/
def accept_draft (st : Store) (draft_id user_id : String)
    (comments : Option String) (signoff_id : String) (now : Int) :
    Store × Except String String :=
  match get_draft st draft_id with
  | .error e => (st, .error e)
  | .ok draft =>
    if draft.state ≠ "IN_REVIEW" then
      (st, .error ("Cannot accept from state " ++ draft.state ++
        ". Draft must be in IN_REVIEW state."))
    else if draft.outgoing_user_id ≠ user_id then
      (st, .error "Only outgoing user can accept draft")
    else
      let st1 := create_signoff st draft_id user_id "outgoing" comments signoff_id now
      let st2 := update_draft_state st1 draft_id "ACCEPTED" now
      (st2, .ok signoff_id)

/-- `SignoffManager.countersign_draft`: ACCEPTED → SIGNED, incoming user
only; `if not draft.get("incoming_user_id")` is Python falsiness (absent or
empty string). -/
def countersign_draft (st : Store) (draft_id user_id : String)
    (comments : Option String) (signoff_id : String) (now : Int) :
    Store × Except String String :=
  match get_draft st draft_id with
  | .error e => (st, .error e)
  | .ok draft =>
    if draft.state ≠ "ACCEPTED" then
      (st, .error ("Cannot countersign from state " ++ draft.state ++
        ". Draft must be in ACCEPTED state."))
    else if draft.incoming_user_id.getD "" = "" then
      (st, .error "No incoming user specified for this draft")
    else if draft.incoming_user_id ≠ some user_id then
      (st, .error "Only incoming user can countersign draft")
    else
      let st1 := create_signoff st draft_id user_id "incoming" comments signoff_id now
      let st2 := update_draft_state st1 draft_id "SIGNED" now
      (st2, .ok signoff_id)

/-- `SignoffManager.mark_exported`: SIGNED → EXPORTED, then links the export
record to the draft. -/
def mark_exported (st : Store) (draft_id export_id : String) (now : Int) :
    Store × Except String Bool :=
  match get_draft st draft_id with
  | .error e => (st, .error e)
  | .ok draft =>
    if draft.state ≠ "SIGNED" then
      (st, .error ("Cannot export from state " ++ draft.state ++
        ". Draft must be in SIGNED state."))
    else
      let st1 := update_draft_state st draft_id "EXPORTED" now
      let st2 := { st1 with
        exports := st1.exports.map (fun e =>
          if e.id == export_id then { e with draft_id := some draft_id } else e) }
      (st2, .ok true)

end SignoffManager

/-! ## Handover drafts router (src/routers/handover_drafts.py) -/

namespace HandoverDraftsRouter

/-- `POST /{draft_id}/review` (`enter_review_state`): validates only the
current state, then updates to IN_REVIEW.  The `current_user` argument is
received but never consulted. -/
def enter_review_state (st : Store) (draft_id : String) (_current_user : String)
    (now : Int) : Store × Except String String :=
  match st.drafts.find? (fun d => d.id == draft_id) with
  | none => (st, .error ("Draft " ++ draft_id ++ " not found"))
  | some draft =>
    if draft.state ≠ "DRAFT" then
      (st, .error ("Cannot enter review from state " ++ draft.state ++
        ". Must be DRAFT."))
    else
      (SignoffManager.update_draft_state st draft_id "IN_REVIEW" now,
       .ok "Draft entered review state")

/-- `POST /{draft_id}/items/merge` (`merge_draft_items`).  The `.in_` fetch
returns the matching rows in store order.  On success the new merged item is
inserted, then every requested item is marked `is_suppressed`. -/
def merge_draft_items (st : Store) (draft_id : String) (item_ids : List String)
    (merged_text : String) (new_item_id : String) (now : Int) :
    Store × Except String DraftItem :=
  if item_ids.length < 2 then
    (st, .error "Must provide at least 2 items to merge")
  else
    match st.drafts.find? (fun d => d.id == draft_id) with
    | none => (st, .error ("Draft " ++ draft_id ++ " not found"))
    | some draft =>
      if draft.state ≠ "IN_REVIEW" then
        (st, .error ("Cannot merge items in state " ++ draft.state ++
          ". Must be IN_REVIEW."))
      else
        let items := st.items.filter (fun it => item_ids.contains it.id)
        if items.length ≠ item_ids.length then
          (st, .error "One or more items not found")
        else
          match items with
          | [] =>
            -- unreachable: items.length = item_ids.length ≥ 2
            (st, .error "One or more items not found")
          | first :: _ =>
            let combined := (items.map (fun it => it.source_entry_ids)).flatten
            let merged : DraftItem :=
              { id := new_item_id
                draft_id := none
                section_id := first.section_id
                summary_text := some merged_text
                item_order := first.item_order
                domain_code := first.domain_code
                is_critical := items.any (fun it => it.is_critical)
                source_entry_ids := combined.dedup
                edit_count := 0
                is_suppressed := false
                created_at := now }
            let st1 := { st with items := st.items ++ [merged] }
            let st2 := { st1 with
              items := st1.items.map (fun it =>
                if item_ids.contains it.id then { it with is_suppressed := true } else it) }
            (st2, .ok merged)

end HandoverDraftsRouter

/-! ## DraftGenerator (src/services/draft_generator.py) -/

namespace DraftGenerator

/-- `DraftGenerator.BUCKET_ORDER`. -/
def BUCKET_ORDER : List String :=
  ["Command", "Engineering", "ETO_AVIT", "Deck", "Interior", "Galley",
   "Security", "Admin_Compliance"]

/-- `DraftGenerator._is_critical`. -/
def is_critical (entry : Entry) : Bool :=
  entry.risk_tags.any (fun tag => tag = "Safety_Critical" || tag = "Compliance_Critical")

/-- `.order("created_at", desc=True).limit(1)` over a filtered list: the
first row of a stable descending sort, i.e. the earliest row attaining the
maximal `created_at`. -/
def pickLatest : List Draft → Option Draft
  | [] => none
  | d :: ds =>
    match pickLatest ds with
    | none => some d
    | some d' => if d'.created_at > d.created_at then some d' else some d

/-- `DraftGenerator._get_active_draft`. -/
def get_active_draft (st : Store) (yacht_id outgoing_user_id : String) :
    Option Draft :=
  pickLatest (st.drafts.filter (fun d =>
    d.yacht_id == yacht_id && d.outgoing_user_id == outgoing_user_id &&
    d.state == "DRAFT"))

/-- Stable insertion into a descending-by-`created_at` list. -/
def insertDesc (e : Entry) : List Entry → List Entry
  | [] => [e]
  | x :: xs => if x.created_at ≥ e.created_at then x :: insertDesc e xs else e :: x :: xs

/-- `DraftGenerator._fetch_candidate_entries`. -/
def fetch_candidate_entries (st : Store) (yacht_id : String)
    (period_start period_end : Int) : List Entry :=
  (st.entries.filter (fun e =>
    e.yacht_id == yacht_id && e.status == "candidate" &&
    period_start ≤ e.created_at && e.created_at ≤ period_end)).foldr insertDesc []

/-- `DraftGenerator._create_draft_record`. -/
def create_draft_record (st : Store) (yacht_id outgoing_user_id : String)
    (incoming_user_id : Option String) (period_start period_end : Int)
    (shift_type draft_id : String) (now : Int) : Store :=
  { st with
    drafts := st.drafts ++
      [{ id := draft_id, yacht_id := yacht_id,
         outgoing_user_id := outgoing_user_id,
         incoming_user_id := incoming_user_id,
         period_start := period_start, period_end := period_end,
         shift_type := shift_type, state := "DRAFT",
         created_at := now, updated_at := now }] }

/-- Python `a or b` on optional strings (empty string is falsy). -/
def pyOr (a b : Option String) : Option String :=
  match a with
  | some s => if s = "" then b else some s
  | none => b

/-- `DraftGenerator._group_by_bucket`: a dict pre-seeded with every bucket of
`BUCKET_ORDER`; unknown or absent buckets fall back to `Command`. -/
def group_by_bucket (entries : List Entry) : List (String × List Entry) :=
  entries.foldl (fun acc entry =>
    let b := entry.presentation_bucket.getD "Command"
    let b := if BUCKET_ORDER.contains b then b else "Command"
    acc.map (fun p => if p.1 == b then (p.1, p.2 ++ [entry]) else p))
    (BUCKET_ORDER.map (fun b => (b, [])))

/-- `DraftGenerator._create_item`. -/
def create_item (st : Store) (draft_id section_id : String) (entry : Entry)
    (item_order : Int) (item_id : String) (now : Int) : Store :=
  { st with
    items := st.items ++
      [{ id := item_id, draft_id := some draft_id, section_id := section_id,
         summary_text := pyOr entry.summary_text entry.narrative_text,
         item_order := item_order, domain_code := entry.primary_domain,
         is_critical := is_critical entry, source_entry_ids := [entry.id],
         edit_count := 0, is_suppressed := false, created_at := now }] }

/-- `DraftGenerator._create_section`. -/
def create_section (st : Store) (draft_id bucket : String) (section_order : Int)
    (section_id : String) (now : Int) : Store :=
  { st with
    sections := st.sections ++
      [{ id := section_id, draft_id := draft_id, section_bucket := bucket,
         section_order := section_order, created_at := now }] }

/-- `DraftGenerator._create_sections_and_items`: iterates `BUCKET_ORDER`,
skipping empty buckets; `idSupply` hands out the generated UUIDs in draw
order. -/
def create_sections_and_items (idSupply : Nat → String) (now : Int)
    (draft_id : String) (bucketed : List (String × List Entry)) (st : Store) :
    Store :=
  (BUCKET_ORDER.foldl (fun (acc : Store × Int × Nat) bucket =>
    let entries := (bucketed.lookup bucket).getD []
    if entries.isEmpty then acc
    else
      let section_id := idSupply acc.2.2
      let stA := create_section acc.1 draft_id bucket acc.2.1 section_id now
      let inner := entries.foldl (fun (p : Store × Int × Nat) entry =>
        (create_item p.1 draft_id section_id entry p.2.1 (idSupply p.2.2) now,
         p.2.1 + 1, p.2.2 + 1))
        (stA, 1, acc.2.2 + 1)
      (inner.1, acc.2.1 + 1, inner.2.2))
    (st, 1, 0)).1

/-- `DraftGenerator.generate_draft`.  `now` models `datetime.now()`,
`todayStart` models `datetime.now().replace(hour=0, ...)`, `idSupply` the
stream of generated UUIDs (index 0 is the draft id). -/
def generate_draft (idSupply : Nat → String) (now todayStart : Int) (st : Store)
    (yacht_id outgoing_user_id : String) (incoming_user_id : Option String)
    (period_start period_end : Option Int) (shift_type : String) :
    Store × String :=
  let pe := period_end.getD now
  let ps := period_start.getD todayStart
  match get_active_draft st yacht_id outgoing_user_id with
  | some existing => (st, existing.id)
  | none =>
    let entries := fetch_candidate_entries st yacht_id ps pe
    let draft_id := idSupply 0
    let st1 := create_draft_record st yacht_id outgoing_user_id incoming_user_id
      ps pe shift_type draft_id now
    let bucketed := group_by_bucket entries
    let st2 := create_sections_and_items (fun n => idSupply (n + 1)) now draft_id
      bucketed st1
    (st2, draft_id)

end DraftGenerator

/-! ## Sign-off operation language (for the temporal claim C7) -/

/-- One sign-off manager call, with its caller-supplied data. -/
inductive SignoffOp where
  | enterReview (user_id : String) (now : Int)
  | acceptDraft (user_id : String) (comments : Option String)
      (signoff_id : String) (now : Int)
  | countersignDraft (user_id : String) (comments : Option String)
      (signoff_id : String) (now : Int)
  | markExported (export_id : String) (now : Int)
deriving DecidableEq, Repr

/-- Run one sign-off operation against one draft id, keeping the resulting
store and discarding the per-operation payload of a success. -/
def runOp (op : SignoffOp) (draft_id : String) (st : Store) :
    Store × Except String Unit :=
  match op with
  | .enterReview u now =>
    let r := SignoffManager.enter_review st draft_id u now
    (r.1, r.2.map (fun _ => ()))
  | .acceptDraft u c sid now =>
    let r := SignoffManager.accept_draft st draft_id u c sid now
    (r.1, r.2.map (fun _ => ()))
  | .countersignDraft u c sid now =>
    let r := SignoffManager.countersign_draft st draft_id u c sid now
    (r.1, r.2.map (fun _ => ()))
  | .markExported eid now =>
    let r := SignoffManager.mark_exported st draft_id eid now
    (r.1, r.2.map (fun _ => ()))

/-- Run a sequence of sign-off operations (each with its target draft id). -/
def runOps (ops : List (SignoffOp × String)) (st : Store) : Store :=
  ops.foldl (fun s p => (runOp p.1 p.2 s).1) st

/-- Position of each lifecycle state in the strict order
DRAFT < IN_REVIEW < ACCEPTED < SIGNED < EXPORTED (unknown strings sit at 0;
they can never transition, so they only ever compare with themselves). -/
def stateIdx : String → Nat
  | "DRAFT" => 0
  | "IN_REVIEW" => 1
  | "ACCEPTED" => 2
  | "SIGNED" => 3
  | "EXPORTED" => 4
  | _ => 0

/-- `to ∈ STATE_TRANSITIONS[from]`: the code's own notion of a valid
transition. -/
def validTransition (fromState toState : String) : Prop :=
  toState ∈ ((SignoffManager.STATE_TRANSITIONS.lookup fromState).getD [])

instance (a b : String) : Decidable (validTransition a b) := by
  unfold validTransition; infer_instance

/-! ## Shared sample data for witnesses and counterexamples -/

/-- A sample draft, parameterized by its lifecycle state. -/
def sampleDraft (state : String) : Draft :=
  { id := "d1", yacht_id := "y1", outgoing_user_id := "alice",
    incoming_user_id := some "carol", period_start := 0, period_end := 1,
    shift_type := "day", state := state, created_at := 0, updated_at := 0 }

/-- A one-draft store, parameterized by the draft's state. -/
def sampleStore (state : String) : Store :=
  { drafts := [sampleDraft state], signoffs := [], exports := [], items := [],
    sections := [], entries := [], edits := [] }

/-- A full happy-path sign-off run on `sampleStore "DRAFT"`. -/
def sampleOps : List (SignoffOp × String) :=
  [(.enterReview "alice" 1, "d1"),
   (.acceptDraft "alice" none "s1" 2, "d1"),
   (.countersignDraft "carol" none "s2" 3, "d1"),
   (.markExported "e1" 4, "d1")]

/-- An extracted message with sequence id E1 and a given subject. -/
def sampleEmail (subject : String) : ExtractedEmail :=
  { short_id := "E1", email_id := "m1", conversation_id := "c1",
    subject := subject, body_text := "body", body_preview := "prev",
    sender_name := "Ann", sender_email := "ann@x.io", received_at := 0,
    has_attachments := false, outlook_link := "https://link/1" }

/-- A second extracted message with sequence id E2. -/
def sampleEmail2 (subject : String) : ExtractedEmail :=
  { (sampleEmail subject) with
    short_id := "E2", email_id := "m2",
    outlook_link := "https://link/2" }

/-- A classifier response that echoes a `shortId` matching no extracted
message. -/
def mismatchedResponse : ClassifierResponse :=
  { category := some "Electrical", summary := some "sum", shortId := some "E9" }

/-- A draft item of the sample draft "d1". -/
def sampleItem (id : String) (ord : Int) (srcs : List String) (crit : Bool) :
    DraftItem :=
  { id := id, draft_id := some "d1", section_id := "sec1",
    summary_text := some ("text " ++ id), item_order := ord,
    domain_code := some "ENG-03", is_critical := crit,
    source_entry_ids := srcs, edit_count := 0, is_suppressed := false,
    created_at := 0 }

/-- An IN_REVIEW draft with two items: "a" (order 5, not critical) and
"b" (order 2, critical). -/
def mergeStore : Store :=
  { sampleStore "IN_REVIEW" with
    items := [sampleItem "a" 5 ["s1"] false, sampleItem "b" 2 ["s2", "s1"] true] }

end HandoverExport

deriving instance DecidableEq for Except

namespace HandoverExport

/-! ## Theorems -/

/-- Claim C6: for every draft whose state is SIGNED (and more generally any
state other than IN_REVIEW), `accept_draft` raises an error whose message
names the current state, and the call is atomic in failure: the store is
returned unchanged, so no signoff record is created and the draft's state is
untouched. -/
theorem accept_draft_invalid_state (st : Store) (draft_id user_id : String)
    (comments : Option String) (signoff_id : String) (now : Int) (d : Draft)
    (hd : SignoffManager.get_draft st draft_id = .ok d)
    (hs : d.state ≠ "IN_REVIEW") :
    SignoffManager.accept_draft st draft_id user_id comments signoff_id now =
      (st, .error ("Cannot accept from state " ++ d.state ++
        ". Draft must be in IN_REVIEW state.")) ∧
    (d.state = "SIGNED" →
      SignoffManager.accept_draft st draft_id user_id comments signoff_id now =
        (st, .error
          "Cannot accept from state SIGNED. Draft must be in IN_REVIEW state.")) := by
  have h : SignoffManager.accept_draft st draft_id user_id comments signoff_id now =
      (st, .error ("Cannot accept from state " ++ d.state ++
        ". Draft must be in IN_REVIEW state.")) := by
    unfold SignoffManager.accept_draft
    rw [hd]
    simp [hs]
  refine ⟨h, fun hsg => ?_⟩
  rw [h, hsg]
  rfl

/-- Witness for `accept_draft_invalid_state` at a SIGNED draft. -/
theorem accept_draft_invalid_state_witness :
    SignoffManager.accept_draft (sampleStore "SIGNED") "d1" "alice" none "s1" 0 =
      (sampleStore "SIGNED", .error
        "Cannot accept from state SIGNED. Draft must be in IN_REVIEW state.") :=
  (accept_draft_invalid_state (sampleStore "SIGNED") "d1" "alice" none "s1" 0
    (sampleDraft "SIGNED") rfl (by decide)).2 rfl

/-- Claim C1 (counterexample): `accept_draft` with a non-outgoing user on a
draft in state DRAFT raises the invalid-state error, not the
unauthorized-actor error, so the wrong-user error is NOT raised regardless
of state. -/
theorem accept_draft_wrong_user_cex :
    (SignoffManager.accept_draft (sampleStore "DRAFT") "d1" "bob" none "s1" 0).2 =
      .error "Cannot accept from state DRAFT. Draft must be in IN_REVIEW state." ∧
    (SignoffManager.accept_draft (sampleStore "DRAFT") "d1" "bob" none "s1" 0).2 ≠
      .error "Only outgoing user can accept draft" := by
  exact ⟨rfl, by decide⟩

/-- Claim C1 (amended): for every draft and user id `u ≠ outgoing_user_id`,
`accept_draft` raises an error and leaves the store unchanged; the error is
the unauthorized-actor error exactly when the draft is IN_REVIEW, and the
invalid-state error naming the current state otherwise (the state check
precedes the actor check). -/
theorem accept_draft_wrong_user (st : Store) (draft_id user_id : String)
    (comments : Option String) (signoff_id : String) (now : Int) (d : Draft)
    (hd : SignoffManager.get_draft st draft_id = .ok d)
    (hu : d.outgoing_user_id ≠ user_id) :
    (SignoffManager.accept_draft st draft_id user_id comments signoff_id now).1 = st ∧
    (d.state = "IN_REVIEW" →
      (SignoffManager.accept_draft st draft_id user_id comments signoff_id now).2 =
        .error "Only outgoing user can accept draft") ∧
    (d.state ≠ "IN_REVIEW" →
      (SignoffManager.accept_draft st draft_id user_id comments signoff_id now).2 =
        .error ("Cannot accept from state " ++ d.state ++
          ". Draft must be in IN_REVIEW state.")) := by
  unfold SignoffManager.accept_draft
  rw [hd]
  by_cases hs : d.state = "IN_REVIEW" <;> simp [hs, hu]

/-- Witness for `accept_draft_wrong_user` at an IN_REVIEW draft. -/
theorem accept_draft_wrong_user_witness :
    (SignoffManager.accept_draft (sampleStore "IN_REVIEW") "d1" "bob" none "s1" 0).1 =
      sampleStore "IN_REVIEW" ∧
    (SignoffManager.accept_draft (sampleStore "IN_REVIEW") "d1" "bob" none "s1" 0).2 =
      .error "Only outgoing user can accept draft" :=
  ⟨(accept_draft_wrong_user (sampleStore "IN_REVIEW") "d1" "bob" none "s1" 0
      (sampleDraft "IN_REVIEW") rfl (by decide)).1,
   (accept_draft_wrong_user (sampleStore "IN_REVIEW") "d1" "bob" none "s1" 0
      (sampleDraft "IN_REVIEW") rfl (by decide)).2.1 rfl⟩

/-- Claim C3 (counterexample): the exposed review endpoint
(`enter_review_state` in the drafts router) performs DRAFT → IN_REVIEW on
behalf of a user who is not the recorded outgoing user, without raising:
here "bob" moves alice's draft into review. -/
theorem router_enter_review_no_actor_check_cex :
    (sampleDraft "DRAFT").outgoing_user_id ≠ "bob" ∧
    (HandoverDraftsRouter.enter_review_state (sampleStore "DRAFT") "d1" "bob" 5).2 =
      .ok "Draft entered review state" ∧
    SignoffManager.get_draft
        (HandoverDraftsRouter.enter_review_state (sampleStore "DRAFT") "d1" "bob" 5).1
        "d1" =
      .ok { sampleDraft "DRAFT" with state := "IN_REVIEW", updated_at := 5 } := by
  exact ⟨by decide, rfl, rfl⟩

/-- Claim C3 (amended): the SignoffManager's operations enforce the actor
guards — `enter_review` and `accept_draft` fail for any user other than the
recorded `outgoing_user_id`, and `countersign_draft` fails for any user
other than the recorded `incoming_user_id` — each failure raising an error
and leaving the store (hence the draft's state) unchanged.  The exposed
router endpoint for DRAFT → IN_REVIEW does not check the actor (see the
counterexample). -/
theorem manager_actor_guards :
    (∀ (st : Store) (draft_id user_id : String) (now : Int) (d : Draft),
      SignoffManager.get_draft st draft_id = .ok d →
      d.outgoing_user_id ≠ user_id →
      (SignoffManager.enter_review st draft_id user_id now).1 = st ∧
      ∃ e, (SignoffManager.enter_review st draft_id user_id now).2 = .error e) ∧
    (∀ (st : Store) (draft_id user_id : String) (comments : Option String)
      (signoff_id : String) (now : Int) (d : Draft),
      SignoffManager.get_draft st draft_id = .ok d →
      d.outgoing_user_id ≠ user_id →
      (SignoffManager.accept_draft st draft_id user_id comments signoff_id now).1 = st ∧
      ∃ e, (SignoffManager.accept_draft st draft_id user_id comments signoff_id now).2 =
        .error e) ∧
    (∀ (st : Store) (draft_id user_id : String) (comments : Option String)
      (signoff_id : String) (now : Int) (d : Draft),
      SignoffManager.get_draft st draft_id = .ok d →
      d.incoming_user_id ≠ some user_id →
      (SignoffManager.countersign_draft st draft_id user_id comments signoff_id now).1 =
        st ∧
      ∃ e, (SignoffManager.countersign_draft st draft_id user_id comments signoff_id
        now).2 = .error e) := by
  refine ⟨?_, ?_, ?_⟩
  · intro st draft_id user_id now d hd hu
    unfold SignoffManager.enter_review
    rw [hd]
    by_cases hs : d.state = "DRAFT" <;> simp [hs, hu]
  · intro st draft_id user_id comments signoff_id now d hd hu
    unfold SignoffManager.accept_draft
    rw [hd]
    by_cases hs : d.state = "IN_REVIEW" <;> simp [hs, hu]
  · intro st draft_id user_id comments signoff_id now d hd hu
    unfold SignoffManager.countersign_draft
    rw [hd]
    by_cases hs : d.state = "ACCEPTED"
    · by_cases hin : d.incoming_user_id.getD "" = "" <;> simp [hs, hin, hu]
    · simp [hs]

/-- Witness for `manager_actor_guards`: all three guards at concrete
stores and the wrong user "bob". -/
theorem manager_actor_guards_witness :
    ((SignoffManager.enter_review (sampleStore "DRAFT") "d1" "bob" 0).1 =
        sampleStore "DRAFT" ∧
      ∃ e, (SignoffManager.enter_review (sampleStore "DRAFT") "d1" "bob" 0).2 =
        .error e) ∧
    ((SignoffManager.accept_draft (sampleStore "IN_REVIEW") "d1" "bob" none "s1" 0).1 =
        sampleStore "IN_REVIEW" ∧
      ∃ e, (SignoffManager.accept_draft (sampleStore "IN_REVIEW") "d1" "bob" none "s1"
        0).2 = .error e) ∧
    ((SignoffManager.countersign_draft (sampleStore "ACCEPTED") "d1" "bob" none "s1"
        0).1 = sampleStore "ACCEPTED" ∧
      ∃ e, (SignoffManager.countersign_draft (sampleStore "ACCEPTED") "d1" "bob" none
        "s1" 0).2 = .error e) :=
  ⟨manager_actor_guards.1 (sampleStore "DRAFT") "d1" "bob" 0
      (sampleDraft "DRAFT") rfl (by decide),
   manager_actor_guards.2.1 (sampleStore "IN_REVIEW") "d1" "bob" none "s1" 0
      (sampleDraft "IN_REVIEW") rfl (by decide),
   manager_actor_guards.2.2 (sampleStore "ACCEPTED") "d1" "bob" none "s1" 0
      (sampleDraft "ACCEPTED") rfl (by decide)⟩

end HandoverExport

namespace HandoverExport

/-! ### Helper lemmas for the sign-off state machine -/

theorem find?_map_pres (l : List Draft) (f : Draft → Draft)
    (hid : ∀ d, (f d).id = d.id) (j : String) :
    (l.map f).find? (fun d => d.id == j) = (l.find? (fun d => d.id == j)).map f := by
  induction l with
  | nil => rfl
  | cons a l ih =>
    have hfa : ((f a).id == j) = (a.id == j) := by rw [hid]
    simp only [List.map_cons, List.find?]
    rw [hfa]
    cases h : (a.id == j) with
    | true => simp
    | false => simpa using ih

theorem get_draft_id (st : Store) (j : String) (d : Draft)
    (h : SignoffManager.get_draft st j = .ok d) : d.id = j := by
  unfold SignoffManager.get_draft at h
  cases hf : st.drafts.find? (fun d => d.id == j) with
  | none => rw [hf] at h; cases h
  | some x =>
    rw [hf] at h
    cases h
    have := List.find?_some hf
    simpa using this

theorem get_draft_after_update (st : Store) (did s : String) (now : Int)
    (j : String) (d : Draft) (hd : SignoffManager.get_draft st j = .ok d) :
    ∃ d', SignoffManager.get_draft (SignoffManager.update_draft_state st did s now) j =
        .ok d' ∧
      ((d.id ≠ did ∧ d' = d) ∨
       (d.id = did ∧ d' = { d with state := s, updated_at := now })) := by
  have hid : ∀ x : Draft,
      ((if x.id == did then { x with state := s, updated_at := now } else x) : Draft).id
        = x.id := by
    intro x
    by_cases h : x.id == did <;> simp [h]
  unfold SignoffManager.get_draft SignoffManager.update_draft_state
  unfold SignoffManager.get_draft at hd
  cases hf : st.drafts.find? (fun x => x.id == j) with
  | none => rw [hf] at hd; cases hd
  | some x =>
    rw [hf] at hd
    cases hd
    rw [find?_map_pres _ _ hid, hf]
    by_cases h : d.id = did
    · exact ⟨_, rfl, .inr ⟨h, by simp [h]⟩⟩
    · exact ⟨_, rfl, .inl ⟨h, by simp [h]⟩⟩



theorem validTransition_iff (a b : String) :
    validTransition a b ↔
      (a = "DRAFT" ∧ b = "IN_REVIEW") ∨ (a = "IN_REVIEW" ∧ b = "ACCEPTED") ∨
      (a = "ACCEPTED" ∧ b = "SIGNED") ∨ (a = "SIGNED" ∧ b = "EXPORTED") := by
  unfold validTransition SignoffManager.STATE_TRANSITIONS
  simp only [List.lookup]
  cases hb1 : a == "DRAFT"
  case true =>
    have ha := eq_of_beq hb1
    subst ha
    simp
  case false =>
    have ha1 : a ≠ "DRAFT" := ne_of_beq_false hb1
    cases hb2 : a == "IN_REVIEW"
    case true =>
      have ha := eq_of_beq hb2
      subst ha
      simp
    case false =>
      have ha2 : a ≠ "IN_REVIEW" := ne_of_beq_false hb2
      cases hb3 : a == "ACCEPTED"
      case true =>
        have ha := eq_of_beq hb3
        subst ha
        simp
      case false =>
        have ha3 : a ≠ "ACCEPTED" := ne_of_beq_false hb3
        cases hb4 : a == "SIGNED"
        case true =>
          have ha := eq_of_beq hb4
          subst ha
          simp
        case false =>
          have ha4 : a ≠ "SIGNED" := ne_of_beq_false hb4
          cases hb5 : a == "EXPORTED"
          case true =>
            have ha := eq_of_beq hb5
            subst ha
            simp
          case false =>
            have ha5 : a ≠ "EXPORTED" := ne_of_beq_false hb5
            simp [ha1, ha2, ha3, ha4, ha5]



theorem runOp_drafts (op : SignoffOp) (did : String) (st : Store) (j : String)
    (d : Draft) (hd : SignoffManager.get_draft st j = .ok d) :
    ∃ d', SignoffManager.get_draft (runOp op did st).1 j = .ok d' ∧
      (d'.state = d.state ∨ validTransition d.state d'.state) := by
  have hdj : d.id = j := get_draft_id st j d hd
  cases op with
  | enterReview u now =>
    simp only [runOp, SignoffManager.enter_review]
    cases hg : SignoffManager.get_draft st did with
    | error e => exact ⟨d, by simpa using hd, .inl rfl⟩
    | ok draft =>
      by_cases h1 : draft.state = "DRAFT"
      · by_cases h2 : draft.outgoing_user_id = u
        · simp only [h1, h2, ne_eq, not_true_eq_false, if_false]
          obtain ⟨d', hget, hcase⟩ :=
            get_draft_after_update st did "IN_REVIEW" now j d hd
          refine ⟨d', by simpa using hget, ?_⟩
          rcases hcase with ⟨_, rfl⟩ | ⟨hide, rfl⟩
          · exact .inl rfl
          · right
            have hjd : j = did := by rw [← hdj, hide]
            subst hjd
            rw [hd] at hg
            cases hg
            exact (validTransition_iff _ _).mpr (.inl ⟨h1, rfl⟩)
        · exact ⟨d, by simp [h1, h2]; exact hd, .inl rfl⟩
      · exact ⟨d, by simp [h1]; exact hd, .inl rfl⟩
  | acceptDraft u c sid now =>
    simp only [runOp, SignoffManager.accept_draft]
    cases hg : SignoffManager.get_draft st did with
    | error e => exact ⟨d, by simpa using hd, .inl rfl⟩
    | ok draft =>
      by_cases h1 : draft.state = "IN_REVIEW"
      · by_cases h2 : draft.outgoing_user_id = u
        · simp only [h1, h2, ne_eq, not_true_eq_false, if_false]
          have hd2 : SignoffManager.get_draft
              (SignoffManager.create_signoff st did u "outgoing" c sid now) j =
              .ok d := hd
          obtain ⟨d', hget, hcase⟩ :=
            get_draft_after_update _ did "ACCEPTED" now j d hd2
          refine ⟨d', by simpa using hget, ?_⟩
          rcases hcase with ⟨_, rfl⟩ | ⟨hide, rfl⟩
          · exact .inl rfl
          · right
            have hjd : j = did := by rw [← hdj, hide]
            subst hjd
            rw [hd] at hg
            cases hg
            exact (validTransition_iff _ _).mpr (.inr (.inl ⟨h1, rfl⟩))
        · exact ⟨d, by simp [h1, h2]; exact hd, .inl rfl⟩
      · exact ⟨d, by simp [h1]; exact hd, .inl rfl⟩
  | countersignDraft u c sid now =>
    simp only [runOp, SignoffManager.countersign_draft]
    cases hg : SignoffManager.get_draft st did with
    | error e => exact ⟨d, by simpa using hd, .inl rfl⟩
    | ok draft =>
      by_cases h1 : draft.state = "ACCEPTED"
      · by_cases h2 : draft.incoming_user_id.getD "" = ""
        · exact ⟨d, by simp [h1, h2]; exact hd, .inl rfl⟩
        · by_cases h3 : draft.incoming_user_id = some u
          · have hc1 : ¬ (draft.state ≠ "ACCEPTED") := by simp [h1]
            have hc3 : ¬ (draft.incoming_user_id ≠ some u) := by simp [h3]
            simp only [if_neg hc1, if_neg h2, if_neg hc3]
            have hd2 : SignoffManager.get_draft
                (SignoffManager.create_signoff st did u "incoming" c sid now) j =
                .ok d := hd
            obtain ⟨d', hget, hcase⟩ :=
              get_draft_after_update _ did "SIGNED" now j d hd2
            refine ⟨d', by simpa using hget, ?_⟩
            rcases hcase with ⟨_, rfl⟩ | ⟨hide, rfl⟩
            · exact .inl rfl
            · right
              have hjd : j = did := by rw [← hdj, hide]
              subst hjd
              rw [hd] at hg
              cases hg
              exact (validTransition_iff _ _).mpr (.inr (.inr (.inl ⟨h1, rfl⟩)))
          · exact ⟨d, by simp [h1, h2, h3]; exact hd, .inl rfl⟩
      · exact ⟨d, by simp [h1]; exact hd, .inl rfl⟩
  | markExported eid now =>
    simp only [runOp, SignoffManager.mark_exported]
    cases hg : SignoffManager.get_draft st did with
    | error e => exact ⟨d, by simpa using hd, .inl rfl⟩
    | ok draft =>
      by_cases h1 : draft.state = "SIGNED"
      · simp only [h1, ne_eq, not_true_eq_false, if_false]
        obtain ⟨d', hget, hcase⟩ :=
          get_draft_after_update st did "EXPORTED" now j d hd
        refine ⟨d', by simpa using hget, ?_⟩
        rcases hcase with ⟨_, rfl⟩ | ⟨hide, rfl⟩
        · exact .inl rfl
        · right
          have hjd : j = did := by rw [← hdj, hide]
          subst hjd
          rw [hd] at hg
          cases hg
          exact (validTransition_iff _ _).mpr (.inr (.inr (.inr ⟨h1, rfl⟩)))
      · exact ⟨d, by simp [h1]; exact hd, .inl rfl⟩



theorem validTransition_stateIdx {a b : String} (h : validTransition a b) :
    stateIdx a ≤ stateIdx b := by
  rcases (validTransition_iff a b).mp h with ⟨ha, hb⟩ | ⟨ha, hb⟩ | ⟨ha, hb⟩ | ⟨ha, hb⟩ <;>
    subst ha <;> subst hb <;> decide

theorem runOp_error_unchanged (op : SignoffOp) (did : String) (st : Store)
    (e : String) (he : (runOp op did st).2 = .error e) : (runOp op did st).1 = st := by
  cases op <;>
    simp only [runOp, SignoffManager.enter_review, SignoffManager.accept_draft,
      SignoffManager.countersign_draft, SignoffManager.mark_exported] at he ⊢ <;>
    [cases hg : SignoffManager.get_draft st did;
     cases hg : SignoffManager.get_draft st did;
     cases hg : SignoffManager.get_draft st did;
     cases hg : SignoffManager.get_draft st did] <;>
    simp only [hg] at he ⊢ <;> split_ifs at he ⊢ <;> simp_all [Except.map]

end HandoverExport

namespace HandoverExport

/-- Claim C7: a draft's state never moves backward.  (1) every failing
sign-off operation leaves the store unchanged; (2) each operation leaves
every draft's state unchanged or advances it along the code's own
`STATE_TRANSITIONS` table (whose entries are exactly the immediate
successors DRAFT → IN_REVIEW → ACCEPTED → SIGNED → EXPORTED), and EXPORTED
is terminal; (3) along any sequence of sign-off operations the state index
is monotone non-decreasing. -/
theorem draft_state_never_backward :
    (∀ (op : SignoffOp) (did : String) (st : Store) (e : String),
      (runOp op did st).2 = .error e → (runOp op did st).1 = st) ∧
    (∀ (op : SignoffOp) (did : String) (st : Store) (j : String) (d d' : Draft),
      SignoffManager.get_draft st j = .ok d →
      SignoffManager.get_draft (runOp op did st).1 j = .ok d' →
      (d'.state = d.state ∨ validTransition d.state d'.state) ∧
      (d.state = "EXPORTED" → d'.state = "EXPORTED")) ∧
    (∀ (ops : List (SignoffOp × String)) (st : Store) (j : String) (d d' : Draft),
      SignoffManager.get_draft st j = .ok d →
      SignoffManager.get_draft (runOps ops st) j = .ok d' →
      stateIdx d.state ≤ stateIdx d'.state) := by
  have step : ∀ (op : SignoffOp) (did : String) (st : Store) (j : String) (d d' : Draft),
      SignoffManager.get_draft st j = .ok d →
      SignoffManager.get_draft (runOp op did st).1 j = .ok d' →
      (d'.state = d.state ∨ validTransition d.state d'.state) := by
    intro op did st j d d' hd hd'
    obtain ⟨d'', hget, hdisj⟩ := runOp_drafts op did st j d hd
    rw [hget] at hd'
    cases hd'
    exact hdisj
  refine ⟨runOp_error_unchanged, fun op did st j d d' hd hd' =>
    ⟨step op did st j d d' hd hd', ?_⟩, ?_⟩
  · intro hexp
    rcases step op did st j d d' hd hd' with h | h
    · rw [h, hexp]
    · rw [hexp] at h
      rcases (validTransition_iff _ _).mp h with ⟨ha, _⟩ | ⟨ha, _⟩ | ⟨ha, _⟩ | ⟨ha, _⟩ <;>
        exact absurd ha (by decide)
  · intro ops
    induction ops with
    | nil =>
      intro st j d d' hd hd'
      rw [runOps] at hd'
      simp only [List.foldl_nil] at hd'
      rw [hd] at hd'
      cases hd'
      exact le_refl _
    | cons p ops ih =>
      intro st j d d' hd hd'
      obtain ⟨d1, hget1, hdisj1⟩ := runOp_drafts p.1 p.2 st j d hd
      have hstep : stateIdx d.state ≤ stateIdx d1.state := by
        rcases hdisj1 with h | h
        · rw [h]
        · exact validTransition_stateIdx h
      have hrest : SignoffManager.get_draft (runOps ops (runOp p.1 p.2 st).1) j =
          .ok d' := by
        rw [runOps] at hd' ⊢
        simpa using hd'
      exact le_trans hstep (ih (runOp p.1 p.2 st).1 j d1 d' hget1 hrest)

/-- Witness for `draft_state_never_backward`: the happy-path run
DRAFT → IN_REVIEW → ACCEPTED → SIGNED → EXPORTED on the sample store. -/
theorem draft_state_never_backward_witness :
    stateIdx (sampleDraft "DRAFT").state ≤
      stateIdx ({ sampleDraft "DRAFT" with state := "EXPORTED", updated_at := 4 } : Draft).state :=
  draft_state_never_backward.2.2 sampleOps (sampleStore "DRAFT") "d1"
    (sampleDraft "DRAFT")
    { sampleDraft "DRAFT" with state := "EXPORTED", updated_at := 4 } rfl rfl

end HandoverExport

namespace HandoverExport

/-- Claim C9: for every list of n raw messages and caller-supplied start
offset k (default 1), the Extract stage returns exactly n messages in input
order, assigning sequence ids "E" ++ k, "E" ++ (k+1), ..., "E" ++ (k+n-1) — one id per input
message, incremented by one in fetch order (hence no gaps or repeats). -/
theorem extract_assigns_sequence_ids (parseDate : String → Option Int) (now : Int)
    (emails : List RawEmail) (k : Nat) :
    (ExtractContentStage.execute parseDate now emails k).map (fun e => e.short_id) =
      (List.range emails.length).map (fun i => "E" ++ toString (k + i)) ∧
    (ExtractContentStage.execute parseDate now emails k).map (fun e => e.email_id) =
      emails.map (fun e => e.id) ∧
    (ExtractContentStage.execute parseDate now emails k).length = emails.length := by
  refine ⟨?_, ?_, ?_⟩
  · unfold ExtractContentStage.execute
    rw [List.map_map]
    have h1 : ((fun e : ExtractedEmail => e.short_id) ∘
        fun p : Nat × RawEmail =>
          ExtractContentStage.extractOne parseDate now (k + p.1) p.2) =
        (fun i : Nat => "E" ++ toString (k + i)) ∘ Prod.fst := rfl
    rw [h1, ← List.map_map, List.map_fst_zip]
    simp
  · unfold ExtractContentStage.execute
    rw [List.map_map]
    have h1 : ((fun e : ExtractedEmail => e.email_id) ∘
        fun p : Nat × RawEmail =>
          ExtractContentStage.extractOne parseDate now (k + p.1) p.2) =
        (fun e : RawEmail => e.id) ∘ Prod.snd := rfl
    rw [h1, ← List.map_map, List.map_snd_zip]
    simp
  · unfold ExtractContentStage.execute
    simp

/-- Claim C10: the Classify stage takes each result's sequence id from the
classifier response's echoed `shortId` when present, in preference to the
input message's own id; consequently a response echoing a `shortId` that
matches no extracted message ("E9" here, for the sole message "E1") makes
the Group stage silently emit no group, note or source reference at all,
and neither (total) stage raises. -/
theorem classify_trusts_echoed_short_id :
    (∀ (email : ExtractedEmail) (r : ClassifierResponse),
      (ClassifyStage.classify_single email (.ok r)).short_id =
        r.shortId.getD email.short_id) ∧
    (ClassifyStage.classify_single (sampleEmail "Hi") (.ok mismatchedResponse)).short_id
      = "E9" ∧
    GroupTopicsStage.execute
        [ClassifyStage.classify_single (sampleEmail "Hi") (.ok mismatchedResponse)]
        [sampleEmail "Hi"] = [] := by
  refine ⟨fun email r => rfl, rfl, ?_⟩
  decide

end HandoverExport

namespace HandoverExport

/-- Claim C4 (counterexample): merging items "a" (item_order 5, fetched
first) and "b" (item_order 2) yields a merged item with item_order 5, the
first fetched item's order, although the lowest order among the sources is
2 — the claim's "lowest item_order" is false. -/
theorem merge_items_not_lowest_order_cex :
    ((HandoverDraftsRouter.merge_draft_items mergeStore "d1" ["a", "b"] "m" "n1" 9).2.map
      (fun it => it.item_order)) = .ok 5 ∧
    (mergeStore.items.filter (fun it => ["a", "b"].contains it.id)).map
      (fun it => it.item_order) = [5, 2] ∧
    ¬ (5 : Int) ≤ 2 := by
  refine ⟨rfl, rfl, by decide⟩

/-- Claim C4 (amended): a merge request with fewer than 2 ids is rejected;
otherwise, for a draft in IN_REVIEW whose fetched items are all found,
exactly one new item is created whose source_entry_ids is the de-duplicated
union of the sources' source_entry_ids, whose item_order and domain_code are
those of the FIRST FETCHED source item (not the lowest order), and whose
is_critical holds iff at least one source was critical; every original item
is marked suppressed and none is hard-deleted (all original ids survive,
plus exactly the new id). -/
theorem merge_items_spec :
    (∀ (st : Store) (draft_id : String) (item_ids : List String)
       (merged_text new_item_id : String) (now : Int),
       item_ids.length < 2 →
       HandoverDraftsRouter.merge_draft_items st draft_id item_ids merged_text
         new_item_id now = (st, .error "Must provide at least 2 items to merge")) ∧
    (∀ (st : Store) (draft_id : String) (item_ids : List String)
       (merged_text new_item_id : String) (now : Int) (draft : Draft)
       (first : DraftItem) (rest : List DraftItem),
       st.drafts.find? (fun d => d.id == draft_id) = some draft →
       draft.state = "IN_REVIEW" →
       st.items.filter (fun it => item_ids.contains it.id) = first :: rest →
       (first :: rest).length = item_ids.length →
       2 ≤ item_ids.length →
       item_ids.contains new_item_id = false →
       ∃ merged st',
         HandoverDraftsRouter.merge_draft_items st draft_id item_ids merged_text
           new_item_id now = (st', .ok merged) ∧
         merged.id = new_item_id ∧
         merged.summary_text = some merged_text ∧
         merged.item_order = first.item_order ∧
         merged.domain_code = first.domain_code ∧
         merged.section_id = first.section_id ∧
         (merged.is_critical = true ↔ ∃ it ∈ first :: rest, it.is_critical = true) ∧
         (∀ x, x ∈ merged.source_entry_ids ↔ ∃ it ∈ first :: rest, x ∈ it.source_entry_ids) ∧
         merged.source_entry_ids.Nodup ∧
         st'.items.map (fun it => it.id) = st.items.map (fun it => it.id) ++ [new_item_id] ∧
         (∀ it ∈ st'.items, item_ids.contains it.id = true → it.is_suppressed = true)) := by
  constructor
  · intro st draft_id item_ids merged_text new_item_id now hlt
    unfold HandoverDraftsRouter.merge_draft_items
    rw [if_pos hlt]
  · intro st draft_id item_ids merged_text new_item_id now draft first rest
      hdr hst hfilter hlen h2 hfresh
    unfold HandoverDraftsRouter.merge_draft_items
    rw [if_neg (by omega), hdr]
    have hstate : ¬ (draft.state ≠ "IN_REVIEW") := by simp [hst]
    simp only [if_neg hstate]
    rw [hfilter]
    have hlen2 : ¬ ((first :: rest).length ≠ item_ids.length) := by rw [hlen]; simp
    simp only [if_neg hlen2]
    refine ⟨_, _, rfl, rfl, rfl, rfl, rfl, rfl, ?_, ?_, ?_, ?_, ?_⟩
    · simp [List.any_eq_true]
    · intro x
      simp only [List.mem_dedup, List.mem_flatten, List.mem_map]
      constructor
      · rintro ⟨l, ⟨it, hit, rfl⟩, hx⟩
        exact ⟨it, hit, hx⟩
      · rintro ⟨it, hit, hx⟩
        exact ⟨it.source_entry_ids, ⟨it, hit, rfl⟩, hx⟩
    · exact List.nodup_dedup _
    · have hmapid : ∀ (g : DraftItem → DraftItem), (∀ a, (g a).id = a.id) →
          ∀ l : List DraftItem, (l.map g).map (fun it => it.id) =
            l.map (fun it => it.id) := by
        intro g hg l
        rw [List.map_map]
        exact List.map_congr_left (fun a _ => hg a)
      rw [hmapid _ (fun a => by split <;> rfl)]
      simp
    · intro it hit hc
      obtain ⟨it0, hit0, rfl⟩ := List.mem_map.mp hit
      have hideq : ∀ (x : DraftItem),
          ((if item_ids.contains x.id = true then { x with is_suppressed := true }
            else x) : DraftItem).id = x.id := fun x => by split <;> rfl
      split
      · rfl
      · rename_i hcond
        rw [hideq] at hc
        exact absurd (by simpa using hc) (by simpa using hcond)

/-- Witness for `merge_items_spec`: the concrete merge of items "a" and "b"
on the sample IN_REVIEW store. -/
theorem merge_items_spec_witness :
    ∃ merged st',
      HandoverDraftsRouter.merge_draft_items mergeStore "d1" ["a", "b"] "m" "n1" 9 =
        (st', .ok merged) ∧
      merged.id = "n1" ∧
      merged.summary_text = some "m" ∧
      merged.item_order = (sampleItem "a" 5 ["s1"] false).item_order ∧
      merged.domain_code = (sampleItem "a" 5 ["s1"] false).domain_code ∧
      merged.section_id = (sampleItem "a" 5 ["s1"] false).section_id ∧
      (merged.is_critical = true ↔
        ∃ it ∈ sampleItem "a" 5 ["s1"] false :: [sampleItem "b" 2 ["s2", "s1"] true],
          it.is_critical = true) ∧
      (∀ x, x ∈ merged.source_entry_ids ↔
        ∃ it ∈ sampleItem "a" 5 ["s1"] false :: [sampleItem "b" 2 ["s2", "s1"] true],
          x ∈ it.source_entry_ids) ∧
      merged.source_entry_ids.Nodup ∧
      st'.items.map (fun it => it.id) =
        mergeStore.items.map (fun it => it.id) ++ ["n1"] ∧
      (∀ it ∈ st'.items, (["a", "b"] : List String).contains it.id = true →
        it.is_suppressed = true) :=
  merge_items_spec.2 mergeStore "d1" ["a", "b"] "m" "n1" 9
    (sampleDraft "IN_REVIEW") (sampleItem "a" 5 ["s1"] false)
    [sampleItem "b" 2 ["s2", "s1"] true] rfl rfl rfl rfl (by decide) rfl

end HandoverExport

namespace HandoverExport

/-! ### Helper lemmas for the draft generator -/

theorem foldl_preserve {α β : Type} (f : β → α → β) (P : β → Prop)
    (h : ∀ b a, P b → P (f b a)) : ∀ (l : List α) (b : β), P b → P (l.foldl f b) := by
  intro l
  induction l with
  | nil => intro b hb; exact hb
  | cons a l ih => intro b hb; exact ih (f b a) (h b a hb)

theorem pickLatest_mem (l : List Draft) (d : Draft)
    (h : DraftGenerator.pickLatest l = some d) : d ∈ l := by
  induction l generalizing d with
  | nil => cases h
  | cons x xs ih =>
    rw [DraftGenerator.pickLatest] at h
    cases hp : DraftGenerator.pickLatest xs with
    | none => simp only [hp] at h; cases h; exact List.mem_cons_self _ _
    | some d' =>
      simp only [hp] at h
      by_cases hc : d'.created_at > x.created_at
      · rw [if_pos hc] at h
        cases h
        exact List.mem_cons_of_mem _ (ih _ hp)
      · rw [if_neg hc] at h
        cases h
        exact List.mem_cons_self _ _

theorem pickLatest_eq_none (l : List Draft) :
    DraftGenerator.pickLatest l = none ↔ l = [] := by
  cases l with
  | nil => simp [DraftGenerator.pickLatest]
  | cons x xs =>
    simp only [DraftGenerator.pickLatest]
    cases hp : DraftGenerator.pickLatest xs with
    | none => simp
    | some d' =>
      by_cases hc : d'.created_at > x.created_at <;> simp [hc]

theorem create_item_drafts (st : Store) (draft_id section_id : String)
    (entry : Entry) (item_order : Int) (item_id : String) (now : Int) :
    (DraftGenerator.create_item st draft_id section_id entry item_order item_id
      now).drafts = st.drafts := rfl

theorem create_section_drafts (st : Store) (draft_id bucket : String)
    (section_order : Int) (section_id : String) (now : Int) :
    (DraftGenerator.create_section st draft_id bucket section_order section_id
      now).drafts = st.drafts := rfl

theorem csi_drafts (idSupply : Nat → String) (now : Int) (draft_id : String)
    (bucketed : List (String × List Entry)) (st : Store) :
    (DraftGenerator.create_sections_and_items idSupply now draft_id bucketed st).drafts
      = st.drafts := by
  unfold DraftGenerator.create_sections_and_items
  have := foldl_preserve
    (f := fun (acc : Store × Int × Nat) bucket =>
      let entries := (bucketed.lookup bucket).getD []
      if entries.isEmpty then acc
      else
        let section_id := idSupply acc.2.2
        let stA := DraftGenerator.create_section acc.1 draft_id bucket acc.2.1
          section_id now
        let inner := entries.foldl (fun (p : Store × Int × Nat) entry =>
          (DraftGenerator.create_item p.1 draft_id section_id entry p.2.1
            (idSupply p.2.2) now, p.2.1 + 1, p.2.2 + 1))
          (stA, 1, acc.2.2 + 1)
        (inner.1, acc.2.1 + 1, inner.2.2))
    (P := fun acc => acc.1.drafts = st.drafts)
  apply this _ DraftGenerator.BUCKET_ORDER (st, 1, 0) rfl
  intro b a hb
  dsimp only
  by_cases he : ((bucketed.lookup a).getD []).isEmpty
  · rw [if_pos he]
    exact hb
  · rw [if_neg he]
    dsimp only
    have hinner := foldl_preserve
      (f := fun (p : Store × Int × Nat) entry =>
        (DraftGenerator.create_item p.1 draft_id (idSupply b.2.2) entry p.2.1
          (idSupply p.2.2) now, p.2.1 + 1, p.2.2 + 1))
      (P := fun p => p.1.drafts = st.drafts)
    apply hinner _ ((bucketed.lookup a).getD [])
      (DraftGenerator.create_section b.1 draft_id a b.2.1 (idSupply b.2.2) now, 1,
        b.2.2 + 1)
    · rw [create_section_drafts]
      exact hb
    · intro p e hp
      rw [create_item_drafts]
      exact hp



/-- Claim C8: `generate_draft` is idempotent per active draft.  When a
DRAFT-state draft already exists for the (vessel, outgoing user) pair, the
call returns that draft's id and the store is returned entirely unchanged
(no new draft, section or item records); a new draft record is appended
only when no DRAFT-state draft exists for that combination. -/
theorem generate_draft_idempotent :
    (∀ (idSupply : Nat → String) (now todayStart : Int) (st : Store)
       (yacht_id outgoing_user_id : String) (incoming_user_id : Option String)
       (period_start period_end : Option Int) (shift_type : String) (d : Draft),
       DraftGenerator.get_active_draft st yacht_id outgoing_user_id = some d →
       DraftGenerator.generate_draft idSupply now todayStart st yacht_id
         outgoing_user_id incoming_user_id period_start period_end shift_type =
         (st, d.id) ∧
       d ∈ st.drafts ∧ d.state = "DRAFT" ∧ d.yacht_id = yacht_id ∧
       d.outgoing_user_id = outgoing_user_id) ∧
    (∀ (idSupply : Nat → String) (now todayStart : Int) (st : Store)
       (yacht_id outgoing_user_id : String) (incoming_user_id : Option String)
       (period_start period_end : Option Int) (shift_type : String),
       DraftGenerator.get_active_draft st yacht_id outgoing_user_id = none →
       (∀ d ∈ st.drafts,
         ¬ (d.yacht_id = yacht_id ∧ d.outgoing_user_id = outgoing_user_id ∧
            d.state = "DRAFT")) ∧
       (DraftGenerator.generate_draft idSupply now todayStart st yacht_id
         outgoing_user_id incoming_user_id period_start period_end
         shift_type).1.drafts =
         st.drafts ++
           [{ id := idSupply 0, yacht_id := yacht_id,
              outgoing_user_id := outgoing_user_id,
              incoming_user_id := incoming_user_id,
              period_start := period_start.getD todayStart,
              period_end := period_end.getD now,
              shift_type := shift_type, state := "DRAFT",
              created_at := now, updated_at := now }] ∧
       (DraftGenerator.generate_draft idSupply now todayStart st yacht_id
         outgoing_user_id incoming_user_id period_start period_end
         shift_type).2 = idSupply 0) := by
  constructor
  · intro idSupply now todayStart st yacht_id outgoing_user_id incoming_user_id
      period_start period_end shift_type d hact
    refine ⟨?_, ?_⟩
    · unfold DraftGenerator.generate_draft
      simp only [hact]
    · have hmem := pickLatest_mem _ _ hact
      rw [List.mem_filter] at hmem
      obtain ⟨hm, hp⟩ := hmem
      simp only [Bool.and_eq_true, beq_iff_eq] at hp
      exact ⟨hm, hp.2, hp.1.1, hp.1.2⟩
  · intro idSupply now todayStart st yacht_id outgoing_user_id incoming_user_id
      period_start period_end shift_type hnone
    refine ⟨?_, ?_, ?_⟩
    · unfold DraftGenerator.get_active_draft at hnone
      rw [pickLatest_eq_none, List.filter_eq_nil_iff] at hnone
      intro d hd hcon
      exact hnone d hd (by simp [hcon.1, hcon.2.1, hcon.2.2])
    · unfold DraftGenerator.generate_draft
      simp only [hnone]
      rw [csi_drafts]
      rfl
    · unfold DraftGenerator.generate_draft
      simp only [hnone]

/-- Witness for `generate_draft_idempotent`: re-generation on a store that
already holds alice's DRAFT-state draft returns that draft's id and leaves
the store untouched. -/
theorem generate_draft_idempotent_witness :
    DraftGenerator.generate_draft (fun _ => "u0") 10 5 (sampleStore "DRAFT") "y1"
      "alice" none none none "day" = (sampleStore "DRAFT", "d1") ∧
    sampleDraft "DRAFT" ∈ (sampleStore "DRAFT").drafts ∧
    (sampleDraft "DRAFT").state = "DRAFT" ∧
    (sampleDraft "DRAFT").yacht_id = "y1" ∧
    (sampleDraft "DRAFT").outgoing_user_id = "alice" :=
  generate_draft_idempotent.1 (fun _ => "u0") 10 5 (sampleStore "DRAFT") "y1"
    "alice" none none none "day" (sampleDraft "DRAFT") rfl

end HandoverExport

namespace HandoverExport

/-! ### Helper lemmas for the Group stage -/

theorem lookup_none_not_mem (groups : List (String × TopicGroup)) (key : String)
    (h : groups.lookup key = none) : key ∉ groups.map Prod.fst := by
  induction groups with
  | nil => simp
  | cons p l ih =>
    rw [List.lookup] at h
    cases hb : (key == p.1) with
    | true => rw [hb] at h; cases h
    | false =>
      rw [hb] at h
      simp only [List.map_cons, List.mem_cons]
      rintro (rfl | hm)
      · simp at hb
      · exact ih h hm

theorem lookup_append_some (l l' : List (String × TopicGroup)) (k : String)
    (g : TopicGroup) (h : l.lookup k = some g) : (l ++ l').lookup k = some g := by
  induction l with
  | nil => cases h
  | cons p t ih =>
    rw [List.lookup] at h
    rw [List.cons_append, List.lookup]
    cases hb : (k == p.1) with
    | true => rw [hb] at h; exact h
    | false => rw [hb] at h; exact ih h

theorem lookup_append_fresh (l : List (String × TopicGroup)) (k : String)
    (v : TopicGroup) (h : l.lookup k = none) : (l ++ [(k, v)]).lookup k = some v := by
  induction l with
  | nil => simp [List.lookup]
  | cons p t ih =>
    rw [List.lookup] at h
    rw [List.cons_append, List.lookup]
    cases hb : (k == p.1) with
    | true => rw [hb] at h; cases h
    | false => rw [hb] at h; exact ih h

theorem lookup_map_update (l : List (String × TopicGroup)) (key k : String)
    (f : String × TopicGroup → TopicGroup) :
    (l.map (fun p => if p.1 == key then (p.1, f p) else p)).lookup k =
      (l.lookup k).map (fun g => if k == key then f (k, g) else g) := by
  induction l with
  | cons p t ih =>
    simp only [List.map_cons]
    by_cases h1 : p.1 == key
    · rw [if_pos h1]
      rw [List.lookup, List.lookup]
      cases hb : (k == p.1) with
      | true =>
        have hk : k = p.1 := eq_of_beq hb
        have hkey : (k == key) = true := by
          rw [hk]; exact h1
        subst hk
        simp [hkey]
      | false => exact ih
    · rw [if_neg h1]
      rw [List.lookup, List.lookup]
      cases hb : (k == p.1) with
      | true =>
        have hk : k = p.1 := eq_of_beq hb
        have hkey : (k == key) = false := by
          rw [hk]
          cases hc : (p.1 == key)
          · rfl
          · exact absurd hc h1
        simp [hkey]
      | false => exact ih
  | nil => rfl



theorem update_map_keys (l : List (String × TopicGroup)) (key : String)
    (f : String × TopicGroup → TopicGroup) :
    (l.map (fun p => if p.1 == key then (p.1, f p) else p)).map Prod.fst =
      l.map Prod.fst := by
  induction l with
  | nil => rfl
  | cons p t ih =>
    simp only [List.map_cons, ih]
    congr 1
    split <;> rfl

theorem groupStep_keys_nodup (emails : List ExtractedEmail)
    (groups : List (String × TopicGroup)) (cls : ClassificationResult)
    (h : (groups.map Prod.fst).Nodup) :
    ((GroupTopicsStage.groupStep emails groups cls).map Prod.fst).Nodup := by
  unfold GroupTopicsStage.groupStep
  cases GroupTopicsStage.lookupEmail emails cls.short_id with
  | none => exact h
  | some email =>
    simp only
    rw [update_map_keys]
    cases hl : (groups.lookup (cls.category.value ++ "::" ++
        GroupTopicsStage.normalize_subject email.subject)) with
    | some g => simp [hl, h]
    | none =>
      have hnm := lookup_none_not_mem _ _ hl
      simp [hl, List.nodup_append, h, hnm]



theorem groupStep_note_preserved (emails : List ExtractedEmail)
    (groups : List (String × TopicGroup)) (cls : ClassificationResult)
    (k : String) (g : TopicGroup) (x : String × String)
    (hk : groups.lookup k = some g) (hx : x ∈ g.notes) :
    ∃ g', (GroupTopicsStage.groupStep emails groups cls).lookup k = some g' ∧
      x ∈ g'.notes := by
  unfold GroupTopicsStage.groupStep
  cases GroupTopicsStage.lookupEmail emails cls.short_id with
  | none => exact ⟨g, hk, hx⟩
  | some email =>
    simp only
    rw [lookup_map_update]
    cases hl : (groups.lookup (cls.category.value ++ "::" ++
        GroupTopicsStage.normalize_subject email.subject)) with
    | some g0 =>
      simp only [hl, Option.isSome_some, if_true, hk]
      refine ⟨_, rfl, ?_⟩
      by_cases hkk : (k == cls.category.value ++ "::" ++
          GroupTopicsStage.normalize_subject email.subject)
      · simp [hkk, GroupTopicsStage.addNote, hx]
      · simp [hkk, hx]
    | none =>
      simp only [hl, Option.isSome_none, Bool.false_eq_true, if_false]
      rw [lookup_append_some _ _ _ _ hk]
      refine ⟨_, rfl, ?_⟩
      by_cases hkk : (k == cls.category.value ++ "::" ++
          GroupTopicsStage.normalize_subject email.subject)
      · simp [hkk, GroupTopicsStage.addNote, hx]
      · simp [hkk, hx]

theorem groupStep_adds_note (emails : List ExtractedEmail)
    (groups : List (String × TopicGroup)) (cls : ClassificationResult)
    (email : ExtractedEmail)
    (he : GroupTopicsStage.lookupEmail emails cls.short_id = some email) :
    ∃ g', (GroupTopicsStage.groupStep emails groups cls).lookup
        (cls.category.value ++ "::" ++
          GroupTopicsStage.normalize_subject email.subject) = some g' ∧
      (email.subject, cls.summary) ∈ g'.notes := by
  unfold GroupTopicsStage.groupStep
  rw [he]
  simp only
  rw [lookup_map_update]
  cases hl : (groups.lookup (cls.category.value ++ "::" ++
      GroupTopicsStage.normalize_subject email.subject)) with
  | some g0 =>
    simp only [hl, Option.isSome_some, if_true]
    refine ⟨_, rfl, ?_⟩
    simp [GroupTopicsStage.addNote]
  | none =>
    simp only [hl, Option.isSome_none, Bool.false_eq_true, if_false]
    rw [lookup_append_fresh _ _ _ hl]
    refine ⟨_, rfl, ?_⟩
    simp [GroupTopicsStage.addNote]



theorem foldl_note_preserved (emails : List ExtractedEmail)
    (rest : List ClassificationResult) :
    ∀ (groups : List (String × TopicGroup)) (k : String) (g : TopicGroup)
      (x : String × String), groups.lookup k = some g → x ∈ g.notes →
      ∃ g', (rest.foldl (GroupTopicsStage.groupStep emails) groups).lookup k =
          some g' ∧ x ∈ g'.notes := by
  induction rest with
  | nil => intro groups k g x hk hx; exact ⟨g, hk, hx⟩
  | cons c cs ih =>
    intro groups k g x hk hx
    obtain ⟨g1, hk1, hx1⟩ := groupStep_note_preserved emails groups c k g x hk hx
    rw [List.foldl_cons]
    exact ih _ k g1 x hk1 hx1

theorem execute_keys_nodup (classifications : List ClassificationResult)
    (emails : List ExtractedEmail) :
    ((GroupTopicsStage.execute classifications emails).map Prod.fst).Nodup := by
  unfold GroupTopicsStage.execute
  have : ∀ (groups : List (String × TopicGroup)),
      (groups.map Prod.fst).Nodup →
      ((classifications.foldl (GroupTopicsStage.groupStep emails) groups).map
        Prod.fst).Nodup := by
    induction classifications with
    | nil => intro groups h; exact h
    | cons c cs ih =>
      intro groups h
      rw [List.foldl_cons]
      exact ih _ (groupStep_keys_nodup emails groups c h)
  exact this [] (by simp)

theorem execute_contains_note (classifications : List ClassificationResult)
    (emails : List ExtractedEmail) (c : ClassificationResult)
    (email : ExtractedEmail) (hc : c ∈ classifications)
    (he : GroupTopicsStage.lookupEmail emails c.short_id = some email) :
    ∃ g, (GroupTopicsStage.execute classifications emails).lookup
        (c.category.value ++ "::" ++
          GroupTopicsStage.normalize_subject email.subject) = some g ∧
      (email.subject, c.summary) ∈ g.notes := by
  obtain ⟨l1, l2, rfl⟩ := List.append_of_mem hc
  unfold GroupTopicsStage.execute
  rw [List.foldl_append, List.foldl_cons]
  obtain ⟨g1, hk1, hx1⟩ := groupStep_adds_note emails
    (l1.foldl (GroupTopicsStage.groupStep emails) []) c email he
  exact foldl_note_preserved emails l2 _ _ g1 _ hk1 hx1



/-- Claim C2 (amended): within one run the Group stage's internal grouping
key (category value ++ "::" ++ normalized subject) uniquely identifies a
TopicGroup — the output association list has pairwise-distinct keys — and
any two classified messages with the same category and the same normalized
subject land in the same TopicGroup (which holds both their notes).  The
`merge_key` field, which strips all non-alphanumerics, can coincide for two
distinct groups (see the counterexample), so it does not uniquely identify
a group. -/
theorem group_key_unique_and_collapse :
    (∀ (classifications : List ClassificationResult) (emails : List ExtractedEmail),
      ((GroupTopicsStage.execute classifications emails).map Prod.fst).Nodup) ∧
    (∀ (classifications : List ClassificationResult) (emails : List ExtractedEmail)
       (c1 c2 : ClassificationResult) (e1 e2 : ExtractedEmail),
      c1 ∈ classifications → c2 ∈ classifications →
      GroupTopicsStage.lookupEmail emails c1.short_id = some e1 →
      GroupTopicsStage.lookupEmail emails c2.short_id = some e2 →
      c1.category = c2.category →
      GroupTopicsStage.normalize_subject e1.subject =
        GroupTopicsStage.normalize_subject e2.subject →
      ∃ g, (GroupTopicsStage.execute classifications emails).lookup
          (c1.category.value ++ "::" ++
            GroupTopicsStage.normalize_subject e1.subject) = some g ∧
        (e1.subject, c1.summary) ∈ g.notes ∧ (e2.subject, c2.summary) ∈ g.notes) := by
  refine ⟨execute_keys_nodup, ?_⟩
  intro classifications emails c1 c2 e1 e2 hc1 hc2 he1 he2 hcat hsub
  obtain ⟨g1, hk1, hx1⟩ := execute_contains_note classifications emails c1 e1 hc1 he1
  obtain ⟨g2, hk2, hx2⟩ := execute_contains_note classifications emails c2 e2 hc2 he2
  rw [← hcat, ← hsub] at hk2
  rw [hk1] at hk2
  cases hk2
  exact ⟨g1, hk1, hx1, hx2⟩

/-- Claim C2 (counterexample): subjects "a b" and "ab" with the same
category produce two distinct TopicGroups (different subject_group) that
carry the same merge_key "generaloutstandingab". -/
theorem merge_key_collision_cex :
    (GroupTopicsStage.execute
        [⟨"E1", .GENERAL, "n1", 9/10⟩, ⟨"E2", .GENERAL, "n2", 9/10⟩]
        [sampleEmail "a b", sampleEmail2 "ab"]).map (fun p => p.2.merge_key) =
      ["generaloutstandingab", "generaloutstandingab"] ∧
    (GroupTopicsStage.execute
        [⟨"E1", .GENERAL, "n1", 9/10⟩, ⟨"E2", .GENERAL, "n2", 9/10⟩]
        [sampleEmail "a b", sampleEmail2 "ab"]).map (fun p => p.2.subject_group) =
      ["a b", "ab"] := by
  exact ⟨rfl, rfl⟩

/-- Witness for `group_key_unique_and_collapse`: the spec's own example —
"RE: Generator Issue" and "FW: generator issue", same category — collapse
into one group holding both notes. -/
theorem group_key_unique_and_collapse_witness :
    ∃ g, (GroupTopicsStage.execute
        [⟨"E1", .GENERAL, "n1", 9/10⟩, ⟨"E2", .GENERAL, "n2", 9/10⟩]
        [sampleEmail "RE: Generator Issue", sampleEmail2 "FW: generator issue"]).lookup
        ((⟨"E1", .GENERAL, "n1", 9/10⟩ : ClassificationResult).category.value ++ "::" ++
          GroupTopicsStage.normalize_subject
            (sampleEmail "RE: Generator Issue").subject) = some g ∧
      ((sampleEmail "RE: Generator Issue").subject, "n1") ∈ g.notes ∧
      ((sampleEmail2 "FW: generator issue").subject, "n2") ∈ g.notes :=
  group_key_unique_and_collapse.2
    [⟨"E1", .GENERAL, "n1", 9/10⟩, ⟨"E2", .GENERAL, "n2", 9/10⟩]
    [sampleEmail "RE: Generator Issue", sampleEmail2 "FW: generator issue"]
    ⟨"E1", .GENERAL, "n1", 9/10⟩ ⟨"E2", .GENERAL, "n2", 9/10⟩
    (sampleEmail "RE: Generator Issue") (sampleEmail2 "FW: generator issue")
    (by simp) (by simp) rfl rfl rfl rfl

end HandoverExport

namespace HandoverExport

/-! ### Equivalence of the source normalizer with the spec-reference definition -/

theorem dropMarker_eq_ref (l : List Char) : dropMarker l = refDropMarker l := by
  unfold dropMarker refDropMarker
  have key : ∀ (p : List Char), (l.take p.length = p) ↔ (p.isPrefixOf l = true) := by
    intro p
    rw [List.isPrefixOf_iff_prefix, List.prefix_iff_eq_take]
    constructor <;> (intro h; exact h.symm)
  by_cases c1 : l.take 3 = ['r', 'e', ':']
  · rw [if_pos c1, if_pos ((key ['r', 'e', ':']).mp c1)]
  · rw [if_neg c1, if_neg (fun hh => c1 ((key ['r', 'e', ':']).mpr hh))]
    by_cases c2 : l.take 3 = ['f', 'w', ':']
    · rw [if_pos c2, if_pos ((key ['f', 'w', ':']).mp c2)]
    · rw [if_neg c2, if_neg (fun hh => c2 ((key ['f', 'w', ':']).mpr hh))]
      by_cases c3 : l.take 4 = ['f', 'w', 'd', ':']
      · rw [if_pos c3, if_pos ((key ['f', 'w', 'd', ':']).mp c3)]
      · rw [if_neg c3, if_neg (fun hh => c3 ((key ['f', 'w', 'd', ':']).mpr hh))]

theorem collapseRuns_cons_cons (c d : Char) (ds : List Char) :
    collapseRuns (c :: d :: ds) =
      if isLowerAlnum c then c :: collapseRuns (d :: ds)
      else if isLowerAlnum d then ' ' :: collapseRuns (d :: ds)
      else collapseRuns (d :: ds) := rfl

theorem squeezeSpaces_cons_cons (a b : Char) (rest : List Char) :
    squeezeSpaces (a :: b :: rest) =
      if a = ' ' && b = ' ' then squeezeSpaces (b :: rest)
      else a :: squeezeSpaces (b :: rest) := rfl

theorem collapseRuns_eq_ref (l : List Char) : collapseRuns l = refCollapse l := by
  unfold refCollapse
  induction l with
  | nil => rfl
  | cons c cs ih =>
    cases cs with
    | nil =>
      by_cases h : isLowerAlnum c <;> simp [collapseRuns, squeezeSpaces, h]
    | cons d ds =>
      rw [collapseRuns_cons_cons, List.map_cons, List.map_cons,
        squeezeSpaces_cons_cons]
      by_cases hc : isLowerAlnum c
      · have hc' : ¬ (c = ' ') := by
          intro h
          subst h
          exact absurd hc (by decide)
        rw [if_pos hc]
        simp only [List.map_cons] at ih
        simp [hc, hc', ih]
      · rw [if_neg hc]
        simp only [List.map_cons] at ih
        by_cases hd : isLowerAlnum d
        · have hd' : ¬ (d = ' ') := by
            intro h
            subst h
            exact absurd hd (by decide)
          simp [hc, hd, hd', ih]
        · simp [hc, hd, ih]

/-- Claim C5 (amended): `normalize_subject` is a pure total function equal
to the reference definition written from the spec's words, with one change
forced by the counterexample: the "urgent" marker (with optional `:`/`-`
and following whitespace) is stripped at EVERY occurrence in the string,
not only a leading one, because the source's `urgent` regex is unanchored.
In particular normalize_subject("RE: Generator Issue") =
normalize_subject("FW: generator issue") = "generator issue". -/
theorem normalize_subject_spec :
    (∀ s : String, GroupTopicsStage.normalize_subject s =
      normalizeSubjectAmendedRef s) ∧
    GroupTopicsStage.normalize_subject "RE: Generator Issue" = "generator issue" ∧
    GroupTopicsStage.normalize_subject "FW: generator issue" = "generator issue" := by
  refine ⟨?_, rfl, rfl⟩
  intro s
  unfold GroupTopicsStage.normalize_subject normalizeSubjectAmendedRef
  rw [dropMarker_eq_ref, collapseRuns_eq_ref]

/-- Claim C5 (counterexample): on "generator urgent issue" the source strips
the non-leading "urgent" (giving "generator issue"), while the claim's
reference definition, which strips a leading urgent marker only, keeps it —
so the source is not equal to the reference definition as claimed. -/
theorem normalize_subject_leading_urgent_cex :
    GroupTopicsStage.normalize_subject "generator urgent issue" = "generator issue" ∧
    normalizeSubjectClaimRef "generator urgent issue" = "generator urgent issue" ∧
    GroupTopicsStage.normalize_subject "generator urgent issue" ≠
      normalizeSubjectClaimRef "generator urgent issue" :=
  ⟨rfl, rfl, by decide⟩

end HandoverExport
